import Mathlib

/-!
Verification of the ELD trip-planner HOS engine
(`backend/eld_app/services.py` and `backend/eld_app/map_service.py`).

The Python code is shallowly embedded over `ℚ`: every float becomes a
rational, Python `round(x, n)` becomes decimal banker's rounding on `ℚ`,
Python `int(x // 24)` on non-negative floats becomes `⌊x / 24⌋`, and
`x % 24` becomes `x - 24 * ⌊x / 24⌋`.  Stop/segment dictionaries become
structures; dictionary keys that are only ever read through
`.get(key, default)` and may be absent become `Option` fields.  String
fields that no computation inspects (location labels, notes, remark
texts, dates) are elided.  Python's local variable `current_hours` in
`_generate_hos_compliant_stops`, which is read before any assignment
when the first simulated segment emits no stops, is modelled as an
`Option ℚ` local; reading `none` produces the `NameError` the Python
interpreter would raise, so the embedding returns `Except String _`.
-/

/-- Stop types emitted by the planner (`'START'`, `'PICKUP'`, ... string
codes in the source; `OFF` never occurs on a stop but is tested for in
`_generate_daily_schedule` and mapped in `_get_status_for_stop_type`). -/
inductive StopType where
  | START | PICKUP | DROPOFF | FUEL | REST | OVERNIGHT | OFF
deriving DecidableEq, Repr

/-- ELD duty statuses (`'OFF'`, `'SB'`, `'D'`, `'ON'` in the source). -/
inductive Duty where
  | OFF | SB | D | ON
deriving DecidableEq, Repr

/-- Python `round(x, 0)` (banker's rounding / round-half-to-even),
on the rational model of the float. -/
def pyRound0 (x : ℚ) : ℚ :=
  let f : ℤ := ⌊x⌋
  let r : ℚ := x - (f : ℚ)
  if r < 1/2 then (f : ℚ)
  else if 1/2 < r then (f : ℚ) + 1
  else if f % 2 = 0 then (f : ℚ) else (f : ℚ) + 1

/-- Python `round(x, 1)`. -/
def pyRound1 (x : ℚ) : ℚ := pyRound0 (x * 10) / 10

/-- Python `round(x, 2)`. -/
def pyRound2 (x : ℚ) : ℚ := pyRound0 (x * 100) / 100

-- HOS limits and trucking assumptions from `TripPlannerService.__init__`.

def max_driving_hours : ℚ := 11
def max_duty_hours : ℚ := 14
def min_rest_hours : ℚ := 10
def break_after_hours : ℚ := 8
def cycle_limit_hours : ℚ := 70
def fuel_interval_miles : ℚ := 1000
def pickup_duration : ℚ := 1
def dropoff_duration : ℚ := 1
def fuel_stop_duration : ℚ := 1/2
def rest_stop_duration : ℚ := 1/2

/-- `CHUNK_SIZE_HOURS = 0.5` in `_simulate_driving_segment`. -/
def CHUNK_SIZE_HOURS : ℚ := 1/2

/-- `num_chunks = max(1, int(math.ceil(segment_duration_hours / CHUNK_SIZE_HOURS)))`. -/
def num_chunks (segment_duration_hours : ℚ) : ℕ :=
  (max 1 ⌈segment_duration_hours / CHUNK_SIZE_HOURS⌉).toNat

/-- `chunk_hours = segment_duration_hours / num_chunks`. -/
def chunk_hours (segment_duration_hours : ℚ) : ℚ :=
  segment_duration_hours / (num_chunks segment_duration_hours : ℚ)

/-- `chunk_distance = segment_distance_miles / num_chunks`. -/
def chunk_distance (segment_distance_miles segment_duration_hours : ℚ) : ℚ :=
  segment_distance_miles / (num_chunks segment_duration_hours : ℚ)

/-- One stop dictionary as built by `_simulate_driving_segment` and
`_generate_hos_compliant_stops`.  Keys that are present only on some
stops and are read back with `.get(key, default)` are `Option` fields;
the derived `cumulative_distance_km` values and the location/notes
strings are elided. -/
structure Stop where
  type : StopType
  cumulative_distance_miles : ℚ := 0
  cumulative_hours : ℚ := 0
  stop_duration : ℚ := 0
  day : Option ℤ := none
  current_cycle_used : Option ℚ := none
  cumulative_driving_today : Option ℚ := none
  cumulative_on_duty_today : Option ℚ := none
  cumulative_driving_since_break : Option ℚ := none
  next_fuel_check : Option ℚ := none
  current_hours : Option ℚ := none
  day_ended : Bool := false
deriving DecidableEq, Repr

/-- The arguments of `_simulate_driving_segment` (the `segment_name`
string is elided). -/
structure SegInput where
  segment_distance_miles : ℚ
  segment_duration_hours : ℚ
  start_distance : ℚ
  start_hours : ℚ
  cumulative_driving_today : ℚ
  cumulative_on_duty_today : ℚ
  cumulative_driving_since_break : ℚ
  next_fuel_check : ℚ
  is_after_pickup : Bool := false
deriving DecidableEq, Repr

/-- The mutable locals of `_simulate_driving_segment`'s chunk loop. -/
structure SimSt where
  current_cumulative_driving : ℚ
  current_cumulative_on_duty : ℚ
  current_cumulative_break : ℚ
  current_fuel_check : ℚ
  fuel_stop_counter : ℤ
  current_hours : ℚ
deriving DecidableEq, Repr

/-- One iteration of the `for chunk in range(num_chunks)` loop body of
`_simulate_driving_segment`: advance the three clocks by one chunk,
recompute position and time from the chunk progress, then apply the
trigger checks in source order: REST (CHECK 1), FUEL (CHECK 2), then
OVERNIGHT by daily driving limit (CHECK 3) `elif` OVERNIGHT by daily
duty limit (CHECK 4).  Returns the stops emitted in this chunk and the
updated running state. -/
def chunkStep (inp : SegInput) (chunk : ℕ) (st : SimSt) : List Stop × SimSt :=
  let ch := chunk_hours inp.segment_duration_hours
  let driving := st.current_cumulative_driving + ch
  let onDuty0 := st.current_cumulative_on_duty + ch
  let brk0 := st.current_cumulative_break + ch
  let progress : ℚ := ((chunk : ℚ) + 1) / (num_chunks inp.segment_duration_hours : ℚ)
  let current_distance := inp.start_distance + progress * inp.segment_distance_miles
  let hrs0 := inp.start_hours + progress * inp.segment_duration_hours
  -- CHECK 1: 30-minute break needed?
  let restStopRec : Stop :=
    { type := StopType.REST,
      cumulative_distance_miles := pyRound1 current_distance,
      cumulative_hours := pyRound2 (hrs0 + (break_after_hours - brk0)),
      stop_duration := rest_stop_duration,
      cumulative_driving_today := some driving,
      cumulative_on_duty_today := some onDuty0,
      cumulative_driving_since_break := some brk0 }
  let c1 :=
    if break_after_hours ≤ brk0 then
      ([restStopRec], onDuty0 + rest_stop_duration, (0 : ℚ), hrs0 + rest_stop_duration)
    else ([], onDuty0, brk0, hrs0)
  let restStops := c1.1
  let onDuty1 := c1.2.1
  let brk1 := c1.2.2.1
  let hrs1 := c1.2.2.2
  -- CHECK 2: fuel stop needed?
  let fuelStopRec : Stop :=
    { type := StopType.FUEL,
      cumulative_distance_miles := pyRound1 current_distance,
      cumulative_hours := pyRound2 hrs1,
      stop_duration := fuel_stop_duration,
      cumulative_driving_today := some driving,
      cumulative_on_duty_today := some onDuty1,
      cumulative_driving_since_break := some brk1 }
  let c2 :=
    if inp.is_after_pickup = true ∧ st.current_fuel_check ≤ current_distance then
      ([fuelStopRec], onDuty1 + fuel_stop_duration, st.fuel_stop_counter + 1,
       st.current_fuel_check + fuel_interval_miles, hrs1 + fuel_stop_duration)
    else ([], onDuty1, st.fuel_stop_counter, st.current_fuel_check, hrs1)
  let fuelStops := c2.1
  let onDuty2 := c2.2.1
  let counter2 := c2.2.2.1
  let fuelCheck2 := c2.2.2.2.1
  let hrs2 := c2.2.2.2.2
  -- CHECK 3: daily driving limit `elif` CHECK 4: daily duty limit
  let ovnDrivingRec : Stop :=
    { type := StopType.OVERNIGHT,
      cumulative_distance_miles := pyRound1 current_distance,
      cumulative_hours := pyRound2 (hrs2 + (max_driving_hours - driving)),
      stop_duration := min_rest_hours,
      cumulative_driving_today := some driving,
      cumulative_on_duty_today := some onDuty2,
      cumulative_driving_since_break := some brk1,
      day_ended := true }
  let ovnDutyRec : Stop :=
    { type := StopType.OVERNIGHT,
      cumulative_distance_miles := pyRound1 current_distance,
      cumulative_hours := pyRound2 (hrs2 + (max_duty_hours - onDuty2)),
      stop_duration := min_rest_hours,
      cumulative_driving_today := some driving,
      cumulative_on_duty_today := some onDuty2,
      cumulative_driving_since_break := some brk1 }
  let c3 :=
    if max_driving_hours ≤ driving then
      ([ovnDrivingRec], (0 : ℚ), (0 : ℚ), (0 : ℚ), hrs2 + min_rest_hours)
    else if max_duty_hours ≤ onDuty2 then
      ([ovnDutyRec], (0 : ℚ), (0 : ℚ), (0 : ℚ), hrs2 + min_rest_hours)
    else ([], driving, onDuty2, brk1, hrs2)
  (restStops ++ fuelStops ++ c3.1,
   { current_cumulative_driving := c3.2.1,
     current_cumulative_on_duty := c3.2.2.1,
     current_cumulative_break := c3.2.2.2.1,
     current_fuel_check := fuelCheck2,
     fuel_stop_counter := counter2,
     current_hours := c3.2.2.2.2 })

/-- The chunk loop of `_simulate_driving_segment`, iterated over the
list of chunk indices. -/
def simLoop (inp : SegInput) : List ℕ → SimSt → List Stop → List Stop × SimSt
  | [], st, acc => (acc, st)
  | chunk :: rest, st, acc =>
      let r := chunkStep inp chunk st
      simLoop inp rest r.2 (acc ++ r.1)

/-- The initial values of the loop locals (`current_*` variables and
`fuel_stop_counter = int(start_distance // self.fuel_interval_miles) + 1`).
Python's `current_hours` is first assigned inside the loop; since the
loop always runs at least once, its initial value here is never
observed by `_simulate_driving_segment` and is set to `start_hours`. -/
def initSimSt (inp : SegInput) : SimSt :=
  { current_cumulative_driving := inp.cumulative_driving_today,
    current_cumulative_on_duty := inp.cumulative_on_duty_today,
    current_cumulative_break := inp.cumulative_driving_since_break,
    current_fuel_check := inp.next_fuel_check,
    fuel_stop_counter := ⌊inp.start_distance / fuel_interval_miles⌋ + 1,
    current_hours := inp.start_hours }

/-- The post-loop block of `_simulate_driving_segment` that overwrites
the metadata keys of the last emitted stop with the final loop state. -/
def setLastMeta (st : SimSt) : List Stop → List Stop
  | [] => []
  | [s] => [{ s with
      cumulative_driving_today := some st.current_cumulative_driving,
      cumulative_on_duty_today := some st.current_cumulative_on_duty,
      cumulative_driving_since_break := some st.current_cumulative_break,
      next_fuel_check := some st.current_fuel_check,
      current_hours := some st.current_hours }]
  | s :: s2 :: rest => s :: setLastMeta st (s2 :: rest)

/-- The stop list collected by the chunk loop of
`_simulate_driving_segment` (recorded clock values as of each stop's
emission), before the post-loop metadata overwrite of the last stop,
together with the final loop state. -/
def simulateRaw (inp : SegInput) : List Stop × SimSt :=
  simLoop inp (List.range (num_chunks inp.segment_duration_hours)) (initSimSt inp) []

/-- `_simulate_driving_segment`: returns the emitted stop list (with the
last stop's metadata overwritten) together with the final loop state. -/
def simulate_driving_segment (inp : SegInput) : List Stop × SimSt :=
  (setLastMeta (simulateRaw inp).2 (simulateRaw inp).1, (simulateRaw inp).2)

/-- The property that a REST stop's recorded `cumulative_driving_since_break`
(the break clock immediately before its emission) is at least
`break_after_hours` and less than `break_after_hours` plus one chunk. -/
def rest_break_window (inp : SegInput) (s : Stop) : Prop :=
  s.type = StopType.REST →
    ∃ b, s.cumulative_driving_since_break = some b ∧
      break_after_hours ≤ b ∧
      b < break_after_hours + chunk_hours inp.segment_duration_hours

/-- A half-hour leg entered with the break clock already at 7.75 h:
the single chunk pushes the clock to 8.25 h before the REST check. -/
def rest_overflow_input : SegInput :=
  { segment_distance_miles := 0, segment_duration_hours := 1/2,
    start_distance := 0, start_hours := 0,
    cumulative_driving_today := 0, cumulative_on_duty_today := 0,
    cumulative_driving_since_break := 31/4,
    next_fuel_check := 1000, is_after_pickup := false }

/-- A half-hour leg entered with 10.75 h driven today and a positive
break clock: the chunk triggers the daily driving limit (OVERNIGHT),
which also zeroes the break clock although no REST stop is emitted. -/
def overnight_reset_input : SegInput :=
  { segment_distance_miles := 0, segment_duration_hours := 1/2,
    start_distance := 0, start_hours := 0,
    cumulative_driving_today := 43/4, cumulative_on_duty_today := 0,
    cumulative_driving_since_break := 3,
    next_fuel_check := 1000, is_after_pickup := false }

/-- The `NameError` raised by Python when `_generate_hos_compliant_stops`
reads the local `current_hours` that was never assigned (this happens
whenever the first simulated segment emits no stops, because the
variable is only assigned inside `if segment_stops:`). -/
def name_error_current_hours : String :=
  "NameError: name current_hours is not defined"

/-- `_generate_hos_compliant_stops` (location strings elided): START,
simulate current→pickup, PICKUP, simulate pickup→dropoff, DROPOFF.
The updates after each segment are performed only `if segment_stops:`;
the PICKUP and DROPOFF dicts read the local `current_hours`, which has
been assigned only if the first segment emitted at least one stop. -/
def generate_hos_compliant_stops (current_to_pickup_miles current_to_pickup_hours
    pickup_to_dropoff_miles pickup_to_dropoff_hours current_cycle_used : ℚ) :
    Except String (List Stop) :=
  let total_distance_miles := current_to_pickup_miles + pickup_to_dropoff_miles
  let startStop : Stop :=
    { type := StopType.START, day := some 1, current_cycle_used := some current_cycle_used }
  let seg1 := (simulate_driving_segment
    { segment_distance_miles := current_to_pickup_miles,
      segment_duration_hours := current_to_pickup_hours,
      start_distance := 0, start_hours := 0,
      cumulative_driving_today := 0, cumulative_on_duty_today := 0,
      cumulative_driving_since_break := 0,
      next_fuel_check := fuel_interval_miles }).1
  match seg1.getLast? with
  | none =>
      -- `if segment_stops:` was skipped, so `round(current_hours, 2)`
      -- in the PICKUP dict raises NameError
      Except.error name_error_current_hours
  | some last1 =>
      let cumulative_distance := current_to_pickup_miles
      let cumulative_hours := last1.cumulative_hours
      let driving_today := (last1.cumulative_driving_today).getD 0
      let on_duty_today := (last1.cumulative_on_duty_today).getD 0
      let driving_since_break := (last1.cumulative_driving_since_break).getD 0
      let fuel_check := (last1.next_fuel_check).getD fuel_interval_miles
      let current_hours := (last1.current_hours).getD cumulative_hours
      let pickupStop : Stop :=
        { type := StopType.PICKUP,
          cumulative_distance_miles := pyRound2 cumulative_distance,
          cumulative_hours := pyRound2 current_hours,
          stop_duration := pickup_duration }
      let cumulative_hours2 := cumulative_hours + pickup_duration
      let on_duty_today2 := on_duty_today + pickup_duration
      let seg2 := (simulate_driving_segment
        { segment_distance_miles := pickup_to_dropoff_miles,
          segment_duration_hours := pickup_to_dropoff_hours,
          start_distance := cumulative_distance, start_hours := cumulative_hours2,
          cumulative_driving_today := driving_today,
          cumulative_on_duty_today := on_duty_today2,
          cumulative_driving_since_break := driving_since_break,
          next_fuel_check := fuel_check, is_after_pickup := true }).1
      let current_hours2 :=
        match seg2.getLast? with
        | none => current_hours
        | some last2 => (last2.current_hours).getD last2.cumulative_hours
      let dropStop : Stop :=
        { type := StopType.DROPOFF,
          cumulative_distance_miles := pyRound2 total_distance_miles,
          cumulative_hours := pyRound2 current_hours2,
          stop_duration := dropoff_duration }
      Except.ok (startStop :: seg1 ++ pickupStop :: seg2 ++ [dropStop])

/-- The REST stop emitted in the 16th chunk of an 8-hour, 400-mile
first leg, as it sits in the segment's stop list at emission time. -/
def rawRestC8 : Stop :=
  { type := StopType.REST,
    cumulative_distance_miles := pyRound1 400,
    cumulative_hours := pyRound2 8,
    stop_duration := rest_stop_duration,
    cumulative_driving_today := some 8,
    cumulative_on_duty_today := some 8,
    cumulative_driving_since_break := some 8 }

/-- The same REST stop after `_simulate_driving_segment`'s post-loop
metadata overwrite with the final loop state. -/
def restC8 : Stop :=
  { type := StopType.REST,
    cumulative_distance_miles := pyRound1 400,
    cumulative_hours := pyRound2 8,
    stop_duration := rest_stop_duration,
    cumulative_driving_today := some 8,
    cumulative_on_duty_today := some (17/2),
    cumulative_driving_since_break := some 0,
    next_fuel_check := some 1000,
    current_hours := some (17/2) }

/-- A stop's projection onto one calendar day, as produced by
`_split_stops_across_days` (`stop.copy()` plus the day-bound keys; only
the keys that are read downstream are kept). -/
structure Frag where
  type : StopType
  day : ℤ
  start_time_in_day : ℚ
  end_time_in_day : ℚ
  duration_in_day : ℚ
  stop_duration : ℚ := 0
  is_split_part : Bool := false
  split_part : ℤ := 1
  original_stop_duration : Option ℚ := none
deriving DecidableEq, Repr

/-- The `while remaining_duration > 0` loop of `_split_stops_across_days`:
chops the remainder (after the first midnight) into fragments of
`min(24.0, remaining)` hours, each starting at hour 0 of its day. -/
def splitTail (ty : StopType) (sd : ℚ) (startDay day : ℤ) (remaining : ℚ) : List Frag :=
  if remaining ≤ 0 then []
  else
    let hrs := min 24 remaining
    { type := ty, day := day, start_time_in_day := 0, end_time_in_day := hrs,
      duration_in_day := hrs, stop_duration := sd, is_split_part := true,
      split_part := day - startDay + 1, original_stop_duration := some sd } ::
      splitTail ty sd startDay (day + 1) (remaining - hrs)
termination_by (⌈remaining⌉).toNat
decreasing_by
  rename_i h
  simp only [not_le] at h
  rcases le_or_lt remaining 24 with h24 | h24
  · rw [min_eq_right h24, sub_self]
    have h1 : (0:ℤ) < ⌈remaining⌉ := Int.ceil_pos.mpr h
    simp only [Int.ceil_zero, Int.toNat_zero]
    omega
  · rw [min_eq_left (le_of_lt h24)]
    have h1 : ⌈remaining - (24:ℚ)⌉ = ⌈remaining⌉ - 24 := by
      exact_mod_cast Int.ceil_sub_int remaining 24
    have h2 : (24:ℤ) < ⌈remaining⌉ := Int.lt_ceil.mpr (by exact_mod_cast h24)
    rw [h1]
    omega

/-- The per-stop body of `_split_stops_across_days`: compute start/end
days (`int(x // 24) + 1`) and times-in-day (`x % 24`), keep the stop
whole when it stays within one day, otherwise clip it at the first
midnight and chop the remainder into day-sized parts. -/
def split_stop_across_days (stop : Stop) : List Frag :=
  let cumulative_hours := stop.cumulative_hours
  let stop_duration := stop.stop_duration
  let start_day : ℤ := ⌊cumulative_hours / 24⌋ + 1
  let start_time_in_day := cumulative_hours - 24 * ⌊cumulative_hours / 24⌋
  let end_hours := cumulative_hours + stop_duration
  let end_day : ℤ := ⌊end_hours / 24⌋ + 1
  let end_time_in_day := end_hours - 24 * ⌊end_hours / 24⌋
  if start_day = end_day then
    [{ type := stop.type, day := start_day, start_time_in_day := start_time_in_day,
       end_time_in_day := end_time_in_day, duration_in_day := stop_duration,
       stop_duration := stop_duration }]
  else
    let hours_on_start_day := 24 - start_time_in_day
    ({ type := stop.type, day := start_day, start_time_in_day := start_time_in_day,
       end_time_in_day := 24, duration_in_day := hours_on_start_day,
       stop_duration := stop_duration, is_split_part := true, split_part := 1,
       original_stop_duration := some stop_duration } : Frag) ::
      splitTail stop.type stop_duration start_day (start_day + 1)
        (stop_duration - hours_on_start_day)

/-- `_split_stops_across_days` over the whole stop list. -/
def split_stops_across_days (stops : List Stop) : List Frag :=
  stops.flatMap split_stop_across_days

/-- A `DutySegment` row of the synthesized daily schedule; `startH` and
`endH` model the dicts' `"start"` and `"end"` keys (remark elided). -/
structure Seg where
  status : Duty
  startH : ℚ
  endH : ℚ
deriving DecidableEq, Repr

/-- Stable insertion of a fragment into a list sorted by
`start_time_in_day` (equal keys keep their original order, matching
Python's stable `list.sort`). -/
def insertFrag (f : Frag) : List Frag → List Frag
  | [] => [f]
  | g :: rest =>
      if f.start_time_in_day < g.start_time_in_day then f :: g :: rest
      else g :: insertFrag f rest

/-- Stable sort by start time, modelling
`day_stops.sort(key=lambda x: x.get('start_time_in_day', 0))`. -/
def sortByStart : List Frag → List Frag
  | [] => []
  | f :: rest => insertFrag f (sortByStart rest)

/-- `_get_status_for_stop_type` (every constructor is covered, so the
`.get(stop_type, 'ON')` default never fires). -/
def get_status_for_stop_type : StopType → Duty
  | StopType.START => Duty.D
  | StopType.PICKUP => Duty.ON
  | StopType.DROPOFF => Duty.ON
  | StopType.FUEL => Duty.ON
  | StopType.REST => Duty.ON
  | StopType.OVERNIGHT => Duty.SB
  | StopType.OFF => Duty.OFF

/-- The `for stop in day_stops:` loop of `_generate_daily_schedule`:
skip fragments that start before the cursor, emit a DRIVING segment
over any gap, then the fragment's own segment, advancing the cursor. -/
def scheduleStops : List Frag → ℚ → List Seg → List Seg × ℚ
  | [], current_time, schedule => (schedule, current_time)
  | f :: rest, current_time, schedule =>
      if f.start_time_in_day < current_time then
        scheduleStops rest current_time schedule
      else
        let withGap :=
          if current_time < f.start_time_in_day then
            (schedule ++ [{ status := Duty.D, startH := current_time,
                            endH := f.start_time_in_day }], f.start_time_in_day)
          else (schedule, current_time)
        scheduleStops rest (withGap.2 + f.duration_in_day)
          (withGap.1 ++ [{ status := get_status_for_stop_type f.type,
                           startH := withGap.2,
                           endH := withGap.2 + f.duration_in_day }])

/-- `_generate_daily_schedule` (remark strings elided).  Returns `none`
exactly where Python raises `IndexError`: on a day `≥ 2` with no
ongoing overnight fragment and an empty stop list, the default
sleeper-berth block reads `day_stops[0]` for its remark. -/
def generate_daily_schedule (day_stops : List Frag) (day_num : ℤ) (total_days : ℕ) :
    Option (List Seg) :=
  let is_last_day := day_num = (total_days : ℤ)
  let sorted := sortByStart day_stops
  let init : Option (List Seg × ℚ) :=
    if day_num = 1 then
      let current_time : ℚ :=
        match sorted with
        | [] => 6
        | f :: _ => if f.start_time_in_day < 6 then f.start_time_in_day else 6
      some (if 0 < current_time then
              [{ status := Duty.OFF, startH := 0, endH := current_time }]
            else [], current_time)
    else
      match sorted.find? (fun s => s.is_split_part &&
          (s.type == StopType.OVERNIGHT || s.type == StopType.OFF)) with
      | some og =>
          some ([{ status := if og.type = StopType.OVERNIGHT then Duty.SB else Duty.OFF,
                   startH := 0, endH := og.end_time_in_day }], og.end_time_in_day)
      | none =>
          match sorted with
          | [] => none
          | _ :: _ => some ([{ status := Duty.SB, startH := 0, endH := 10 }], 10)
  match init with
  | none => none
  | some st =>
      let r := scheduleStops sorted st.2 st.1
      some (if r.2 < 24 then
              r.1 ++ [{ status := if is_last_day then Duty.OFF else Duty.D,
                        startH := r.2, endH := 24 }]
            else r.1)

/-- Contiguous coverage: the segments run from `a` to `b`, each starting
where the previous one ended, with non-negative length. -/
def chainFrom : ℚ → List Seg → ℚ → Prop
  | a, [], b => a = b
  | a, s :: rest, b => s.startH = a ∧ a ≤ s.endH ∧ chainFrom s.endH rest b

/-- The per-day HOS statistics dict of `_calculate_day_stats`. -/
structure DayStats where
  driving_hours : ℚ
  on_duty_not_driving : ℚ
  total_on_duty : ℚ
  off_duty_hours : ℚ
  sleeper_berth : ℚ
deriving DecidableEq, Repr

/-- Driving time inferred from the gaps between consecutive sorted
stops (`if next_start > current_end: driving_hours += next_start -
current_end`). -/
def gapDriving : List Frag → ℚ
  | [] => 0
  | [_] => 0
  | a :: b :: rest =>
      (if a.end_time_in_day < b.start_time_in_day
       then b.start_time_in_day - a.end_time_in_day else 0) + gapDriving (b :: rest)

/-- Sum of `duration_in_day` over PICKUP/DROPOFF/FUEL/REST stops
(the on-duty-not-driving accumulation loop). -/
def onDutySum (l : List Frag) : ℚ :=
  ((l.filter (fun s => s.type == StopType.PICKUP || s.type == StopType.DROPOFF ||
      s.type == StopType.FUEL || s.type == StopType.REST)).map Frag.duration_in_day).sum

/-- Sum of `duration_in_day` over OVERNIGHT stops (the sleeper-berth
accumulation loop). -/
def sleeperSum (l : List Frag) : ℚ :=
  ((l.filter (fun s => s.type == StopType.OVERNIGHT)).map Frag.duration_in_day).sum

/-- `_calculate_day_stats`. -/
def calculate_day_stats (day_stops : List Frag) (day_num : ℤ) (total_days : ℕ) :
    DayStats :=
  if day_stops = [] then
    { driving_hours := 0, on_duty_not_driving := 0, total_on_duty := 0,
      off_duty_hours := 24, sleeper_berth := 0 }
  else
    let sorted := sortByStart day_stops
    let driving_hours := gapDriving sorted
    let on_duty_not_driving := onDutySum sorted
    let sleeper_berth := sleeperSum sorted
    let total_on_duty := driving_hours + on_duty_not_driving
    let total_accounted := total_on_duty + sleeper_berth
    let off_duty_hours := max 0 (24 - total_accounted)
    let is_last_day := day_num = (total_days : ℤ)
    if is_last_day ∧ 0 < sleeper_berth ∧ sleeper_berth < 8 then
      let sb := min 8 (24 - total_on_duty)
      { driving_hours := driving_hours, on_duty_not_driving := on_duty_not_driving,
        total_on_duty := total_on_duty,
        off_duty_hours := max 0 (24 - total_on_duty - sb), sleeper_berth := sb }
    else
      { driving_hours := driving_hours, on_duty_not_driving := on_duty_not_driving,
        total_on_duty := total_on_duty, off_duty_hours := off_duty_hours,
        sleeper_berth := sleeper_berth }

/-- One daily-log dict of `_generate_daily_logs_from_stops` (the date
and the display-string list `stops_today` are elided; `schedule` is
`none` exactly where `_generate_daily_schedule` would raise). -/
structure Log where
  day_number : ℤ
  driving_hours : ℚ
  on_duty_hours : ℚ
  off_duty_hours : ℚ
  sleeper_berth : ℚ
  cycle_used : ℚ
  requires_34_hour_restart : Bool
  schedule : Option (List Seg)
deriving DecidableEq, Repr

/-- Insertion of an integer into an ascending list. -/
def insertInt (x : ℤ) : List ℤ → List ℤ
  | [] => [x]
  | y :: rest => if x < y then x :: y :: rest else y :: insertInt x rest

/-- Ascending sort of day keys (`sorted(stops_by_day.keys())`). -/
def sortInts : List ℤ → List ℤ
  | [] => []
  | x :: rest => insertInt x (sortInts rest)

/-- The distinct day numbers of the processed stops, ascending. -/
def dayKeys (processed : List Frag) : List ℤ :=
  sortInts (processed.map Frag.day).dedup

/-- The per-day loop of `_generate_daily_logs_from_stops`, threading
the running `cycle_used` total; `requires_34_hour_restart` is computed
from the unrounded total, the stored `cycle_used` is rounded to one
decimal and the hour figures to whole numbers, as in the source. -/
def buildLogs (processed : List Frag) (total_days : ℕ) : ℚ → List ℤ → List Log
  | _, [] => []
  | cycle_used, d :: rest =>
      let day_stops := processed.filter (fun f => f.day == d)
      let day_stats := calculate_day_stats day_stops d total_days
      let schedule := generate_daily_schedule day_stops d total_days
      let new_cycle := cycle_used + day_stats.total_on_duty
      { day_number := d,
        driving_hours := pyRound0 day_stats.driving_hours,
        on_duty_hours := pyRound0 day_stats.on_duty_not_driving,
        off_duty_hours := pyRound0 day_stats.off_duty_hours,
        sleeper_berth := pyRound0 day_stats.sleeper_berth,
        cycle_used := pyRound1 new_cycle,
        requires_34_hour_restart := decide (70 ≤ new_cycle),
        schedule := schedule } :: buildLogs processed total_days new_cycle rest

/-- `_generate_daily_logs_from_stops`: split the stops across days,
group them by day, and build one log per day in ascending day order. -/
def generate_daily_logs_from_stops (stops : List Stop) (current_cycle_used : ℚ) :
    List Log :=
  let processed := split_stops_across_days stops
  buildLogs processed (dayKeys processed).length current_cycle_used (dayKeys processed)

/-- Python `math.radians`. -/
noncomputable def radians (x : ℝ) : ℝ := x * Real.pi / 180

/-- Python `math.atan2 y x`. -/
noncomputable def atan2 (y x : ℝ) : ℝ :=
  if 0 < x then Real.arctan (y / x)
  else if x < 0 ∧ 0 ≤ y then Real.arctan (y / x) + Real.pi
  else if x < 0 ∧ y < 0 then Real.arctan (y / x) - Real.pi
  else if x = 0 ∧ 0 < y then Real.pi / 2
  else if x = 0 ∧ y < 0 then -(Real.pi / 2)
  else 0

/-- `_calculate_great_circle_distance` (haversine formula, earth radius
6371 km); coordinates are `(lng, lat)` pairs. -/
noncomputable def calculate_great_circle_distance (coord1 coord2 : ℝ × ℝ) : ℝ :=
  let lat1_rad := radians coord1.2
  let lat2_rad := radians coord2.2
  let dlat := lat2_rad - lat1_rad
  let dlng := radians coord2.1 - radians coord1.1
  let a := Real.sin (dlat/2) ^ 2
    + Real.cos lat1_rad * Real.cos lat2_rad * Real.sin (dlng/2) ^ 2
  let c := 2 * atan2 (Real.sqrt a) (Real.sqrt (1 - a))
  6371 * c

/-- The route summary returned by the map service (`distance_km` and
`duration_hours`; the polyline coordinate list is elided). -/
structure RouteData where
  distance_km : ℝ
  duration_hours : ℝ

/-- `_generate_straight_route`: the straight-line fallback, with
`duration_hours = distance_km / 80` (assumed 80 km/h average speed). -/
noncomputable def generate_straight_route (start_coords end_coords : ℝ × ℝ) : RouteData :=
  { distance_km := calculate_great_circle_distance start_coords end_coords,
    duration_hours := calculate_great_circle_distance start_coords end_coords / 80 }

/-- `get_route`: the OSRM result when the network call succeeds
(modelled as an `Option RouteData` input, the call being external),
otherwise the deterministic straight-line fallback — the `except`
branch of the source. -/
noncomputable def get_route (osrm : Option RouteData) (start_coords end_coords : ℝ × ℝ) :
    RouteData :=
  match osrm with
  | some r => r
  | none => generate_straight_route start_coords end_coords

theorem one_le_num_chunks (h : ℚ) : 1 ≤ num_chunks h := by
  have h1 : (1:ℤ) ≤ max 1 ⌈h / CHUNK_SIZE_HOURS⌉ := le_max_left _ _
  unfold num_chunks
  omega

theorem num_chunks_cast_ge (h : ℚ) (hpos : 0 ≤ h) :
    h / CHUNK_SIZE_HOURS ≤ (num_chunks h : ℚ) := by
  have h1 : h / CHUNK_SIZE_HOURS ≤ (⌈h / CHUNK_SIZE_HOURS⌉ : ℚ) := Int.le_ceil _
  have h2 : (⌈h / CHUNK_SIZE_HOURS⌉ : ℤ) ≤ max 1 ⌈h / CHUNK_SIZE_HOURS⌉ := le_max_right _ _
  have h3 : (0:ℤ) ≤ max 1 ⌈h / CHUNK_SIZE_HOURS⌉ := le_trans (by norm_num) (le_max_left _ _)
  have h4 : ((max 1 ⌈h / CHUNK_SIZE_HOURS⌉).toNat : ℤ) = max 1 ⌈h / CHUNK_SIZE_HOURS⌉ :=
    Int.toNat_of_nonneg h3
  unfold num_chunks
  have h5 : (((max 1 ⌈h / CHUNK_SIZE_HOURS⌉).toNat : ℕ) : ℚ)
      = ((max 1 ⌈h / CHUNK_SIZE_HOURS⌉ : ℤ) : ℚ) := by exact_mod_cast h4
  rw [h5]
  calc h / CHUNK_SIZE_HOURS ≤ (⌈h / CHUNK_SIZE_HOURS⌉ : ℚ) := h1
    _ ≤ ((max 1 ⌈h / CHUNK_SIZE_HOURS⌉ : ℤ) : ℚ) := by exact_mod_cast h2

/-- C7: for a positive-duration leg the simulator uses `N ≥ 1` chunks,
each chunk is at most half an hour of driving, the `N` chunk driving
times sum exactly to the leg duration (so certainly within the `1e-6`
tolerance), and a leg shorter than one chunk gets exactly one chunk. -/
theorem chunk_division_exact (h : ℚ) (hpos : 0 < h) :
    1 ≤ num_chunks h ∧
    chunk_hours h ≤ CHUNK_SIZE_HOURS ∧
    (num_chunks h : ℚ) * chunk_hours h = h ∧
    (h < CHUNK_SIZE_HOURS → num_chunks h = 1) := by
  have hN : 1 ≤ num_chunks h := one_le_num_chunks h
  have hNq : (0:ℚ) < (num_chunks h : ℚ) := by exact_mod_cast hN
  refine ⟨hN, ?_, ?_, ?_⟩
  · have hge := num_chunks_cast_ge h (le_of_lt hpos)
    rw [chunk_hours, div_le_iff₀ hNq]
    have hch : (0:ℚ) < CHUNK_SIZE_HOURS := by norm_num [CHUNK_SIZE_HOURS]
    rw [div_le_iff₀ hch] at hge
    linarith [hge]
  · rw [chunk_hours, mul_div_cancel₀ _ (ne_of_gt hNq)]
  · intro hlt
    have hup : ⌈h / CHUNK_SIZE_HOURS⌉ ≤ 1 := by
      rw [Int.ceil_le]
      rw [div_le_iff₀ (by norm_num [CHUNK_SIZE_HOURS] : (0:ℚ) < CHUNK_SIZE_HOURS)]
      push_cast
      linarith [hlt]
    have hlo : 0 < ⌈h / CHUNK_SIZE_HOURS⌉ :=
      Int.ceil_pos.mpr (div_pos hpos (by norm_num [CHUNK_SIZE_HOURS]))
    have : max 1 ⌈h / CHUNK_SIZE_HOURS⌉ = 1 := by omega
    unfold num_chunks
    rw [this]
    rfl

/-- Witness for `chunk_division_exact` at a quarter-hour leg. -/
theorem chunk_division_exact_witness :
    1 ≤ num_chunks (1/4) ∧
    chunk_hours (1/4) ≤ CHUNK_SIZE_HOURS ∧
    (num_chunks (1/4) : ℚ) * chunk_hours (1/4) = 1/4 ∧
    ((1:ℚ)/4 < CHUNK_SIZE_HOURS → num_chunks (1/4) = 1) :=
  chunk_division_exact (1/4) (by norm_num)

theorem simLoop_append (inp : SegInput) (l1 l2 : List ℕ) (st : SimSt) (acc : List Stop) :
    simLoop inp (l1 ++ l2) st acc
      = simLoop inp l2 (simLoop inp l1 st acc).2 (simLoop inp l1 st acc).1 := by
  induction l1 generalizing st acc with
  | nil => simp [simLoop]
  | cons c rest ih => simp [simLoop, ih]

theorem chunkStep_quiet (inp : SegInput) (chunk : ℕ) (st : SimSt)
    (hb : st.current_cumulative_break + chunk_hours inp.segment_duration_hours
            < break_after_hours)
    (hf : ¬ (inp.is_after_pickup = true ∧
          st.current_fuel_check ≤ inp.start_distance +
            (((chunk : ℚ) + 1) / (num_chunks inp.segment_duration_hours : ℚ))
              * inp.segment_distance_miles))
    (hd : st.current_cumulative_driving + chunk_hours inp.segment_duration_hours
            < max_driving_hours)
    (hu : st.current_cumulative_on_duty + chunk_hours inp.segment_duration_hours
            < max_duty_hours) :
    chunkStep inp chunk st =
      ([], { current_cumulative_driving :=
               st.current_cumulative_driving + chunk_hours inp.segment_duration_hours,
             current_cumulative_on_duty :=
               st.current_cumulative_on_duty + chunk_hours inp.segment_duration_hours,
             current_cumulative_break :=
               st.current_cumulative_break + chunk_hours inp.segment_duration_hours,
             current_fuel_check := st.current_fuel_check,
             fuel_stop_counter := st.fuel_stop_counter,
             current_hours := inp.start_hours +
               (((chunk : ℚ) + 1) / (num_chunks inp.segment_duration_hours : ℚ))
                 * inp.segment_duration_hours }) := by
  simp only [chunkStep, if_neg (not_le.mpr hb), if_neg hf, if_neg (not_le.mpr hd),
    if_neg (not_le.mpr hu), List.append_nil, List.nil_append]

theorem simLoop_quiet (inp : SegInput) (n : ℕ) : ∀ (i : ℕ) (st : SimSt) (acc : List Stop),
    st.current_hours = inp.start_hours +
      ((i : ℚ) / (num_chunks inp.segment_duration_hours : ℚ)) * inp.segment_duration_hours →
    0 ≤ chunk_hours inp.segment_duration_hours →
    st.current_cumulative_break + n * chunk_hours inp.segment_duration_hours
        < break_after_hours →
    st.current_cumulative_driving + n * chunk_hours inp.segment_duration_hours
        < max_driving_hours →
    st.current_cumulative_on_duty + n * chunk_hours inp.segment_duration_hours
        < max_duty_hours →
    (inp.is_after_pickup = false ∨
      (inp.segment_distance_miles = 0 ∧ inp.start_distance < st.current_fuel_check)) →
    simLoop inp (List.range' i n) st acc =
      (acc,
       { current_cumulative_driving :=
           st.current_cumulative_driving + n * chunk_hours inp.segment_duration_hours,
         current_cumulative_on_duty :=
           st.current_cumulative_on_duty + n * chunk_hours inp.segment_duration_hours,
         current_cumulative_break :=
           st.current_cumulative_break + n * chunk_hours inp.segment_duration_hours,
         current_fuel_check := st.current_fuel_check,
         fuel_stop_counter := st.fuel_stop_counter,
         current_hours := inp.start_hours +
           (((i + n : ℕ) : ℚ) / (num_chunks inp.segment_duration_hours : ℚ))
             * inp.segment_duration_hours }) := by
  induction n with
  | zero =>
    intro i st acc hhrs hch hb hd hu hf
    simp only [List.range', simLoop, Prod.mk.injEq]
    cases st with
    | mk a b c d e f =>
      simp only [SimSt.mk.injEq]
      simp only at hhrs
      repeat' apply And.intro
      all_goals first
        | trivial
        | (push_cast; ring)
        | (rw [hhrs]; push_cast; ring)
  | succ n ih =>
    intro i st acc hhrs hch hb hd hu hf
    have hnn : (0:ℚ) ≤ (n : ℚ) * chunk_hours inp.segment_duration_hours :=
      mul_nonneg (by positivity) hch
    have hstep : chunkStep inp i st = _ := chunkStep_quiet inp i st
      (by push_cast at hb; ring_nf at hb ⊢; linarith [hnn])
      (by
        rcases hf with hf | hfz
        · rintro ⟨hp, _⟩; rw [hf] at hp; exact Bool.false_ne_true hp
        · rintro ⟨_, hle⟩
          rw [hfz.1] at hle
          simp only [mul_zero, add_zero] at hle
          exact absurd hle (not_le.mpr hfz.2))
      (by push_cast at hd; ring_nf at hd ⊢; linarith [hnn])
      (by push_cast at hu; ring_nf at hu ⊢; linarith [hnn])
    simp only [List.range', simLoop, hstep, List.append_nil]
    rw [ih (i+1) _ acc (by dsimp only; push_cast; ring) hch
      (by dsimp only; push_cast at hb ⊢; ring_nf at hb ⊢; linarith)
      (by dsimp only; push_cast at hd ⊢; ring_nf at hd ⊢; linarith)
      (by dsimp only; push_cast at hu ⊢; ring_nf at hu ⊢; linarith)
      (by
        rcases hf with hf | hfz
        · exact Or.inl hf
        · exact Or.inr ⟨hfz.1, hfz.2⟩)]
    simp only [Prod.mk.injEq, SimSt.mk.injEq]
    repeat' apply And.intro
    all_goals first
      | trivial
      | (push_cast; ring)

theorem num_chunks_two : num_chunks 2 = 4 := by
  have h : ⌈(2:ℚ) / CHUNK_SIZE_HOURS⌉ = 4 := by norm_num [CHUNK_SIZE_HOURS]
  rw [num_chunks, h]
  rfl

theorem chunk_hours_two : chunk_hours 2 = 1/2 := by
  rw [chunk_hours, num_chunks_two]
  norm_num

theorem seg1_c1_empty :
    (simulate_driving_segment
      ⟨100, 2, 0, 0, 0, 0, 0, fuel_interval_miles, false⟩).1 = [] := by
  rw [simulate_driving_segment, simulateRaw]
  dsimp only
  rw [num_chunks_two, show List.range 4 = List.range' 0 4 from by decide]
  rw [simLoop_quiet _ 4 0 _ []
    (by simp [initSimSt])
    (by rw [chunk_hours_two]; norm_num)
    (by simp only [initSimSt]; rw [chunk_hours_two]; norm_num [break_after_hours])
    (by simp only [initSimSt]; rw [chunk_hours_two]; norm_num [max_driving_hours])
    (by simp only [initSimSt]; rw [chunk_hours_two]; norm_num [max_duty_hours])
    (Or.inl rfl)]
  rfl

/-- C1 (code bug): a trip whose first leg is short enough to trigger no
HOS stop (here 100 miles in 2 hours) followed by a zero-distance
pickup-to-dropoff leg never reaches the DROPOFF stop: the first
simulated segment emits no stops, so the `if segment_stops:` update
block is skipped and the PICKUP dict's `round(current_hours, 2)` reads
the never-assigned local `current_hours`, raising `NameError` instead
of producing the START/PICKUP/DROPOFF stops. -/
theorem zero_distance_trip_hits_name_error :
    generate_hos_compliant_stops 100 2 0 0 0
      = Except.error name_error_current_hours := by
  rw [generate_hos_compliant_stops]
  dsimp only
  rw [seg1_c1_empty]
  rfl

theorem num_chunks_half : num_chunks (1/2) = 1 := by
  have h : ⌈(1:ℚ)/2 / CHUNK_SIZE_HOURS⌉ = 1 := by norm_num [CHUNK_SIZE_HOURS]
  rw [num_chunks, h]
  rfl

theorem chunk_hours_half : chunk_hours (1/2) = 1/2 := by
  rw [chunk_hours, num_chunks_half]
  norm_num

theorem chunkA_props :
    ((chunkStep rest_overflow_input 0 (initSimSt rest_overflow_input)).1.map
      (fun s => (s.type, s.cumulative_driving_since_break)))
      = [(StopType.REST, some (33/4))] := by
  simp only [chunkStep, initSimSt, rest_overflow_input, chunk_hours_half, num_chunks_half,
    break_after_hours, max_driving_hours, max_duty_hours, rest_stop_duration,
    min_rest_hours, fuel_stop_duration, fuel_interval_miles]
  norm_num

theorem chunkB_props :
    ((chunkStep overnight_reset_input 0 (initSimSt overnight_reset_input)).1.map Stop.type
        = [StopType.OVERNIGHT]) ∧
    (chunkStep overnight_reset_input 0 (initSimSt overnight_reset_input)).2.current_cumulative_break
        = 0 := by
  simp only [chunkStep, initSimSt, overnight_reset_input, chunk_hours_half, num_chunks_half,
    break_after_hours, max_driving_hours, max_duty_hours, rest_stop_duration,
    min_rest_hours, fuel_stop_duration, fuel_interval_miles]
  norm_num

theorem chunkStep_rest_bound (inp : SegInput) (chunk : ℕ) (st : SimSt)
    (h : st.current_cumulative_break < break_after_hours) :
    (∀ s ∈ (chunkStep inp chunk st).1, rest_break_window inp s) ∧
    (chunkStep inp chunk st).2.current_cumulative_break < break_after_hours := by
  have hb8 : (0:ℚ) < break_after_hours := by norm_num [break_after_hours]
  constructor
  · intro s hs
    simp only [chunkStep] at hs
    rcases List.mem_append.mp hs with hs12 | hso
    · rcases List.mem_append.mp hs12 with hsr | hsf
      · -- membership in the REST check's list
        split at hsr
        · dsimp only at hsr
          rw [List.mem_singleton] at hsr
          subst hsr
          intro _
          refine ⟨st.current_cumulative_break + chunk_hours inp.segment_duration_hours,
            rfl, ?_, by linarith⟩
          assumption
        · dsimp only at hsr
          exact absurd hsr (List.not_mem_nil s)
      · -- membership in the FUEL check's list: never a REST stop
        split at hsf
        · dsimp only at hsf
          rw [List.mem_singleton] at hsf
          subst hsf
          intro hREST
          exact absurd hREST (by simp)
        · dsimp only at hsf
          exact absurd hsf (List.not_mem_nil s)
    · -- membership in the OVERNIGHT checks' list: never a REST stop
      intro hREST
      repeat' first
        | exact absurd hso (List.not_mem_nil s)
        | (rw [List.mem_singleton] at hso
           subst hso
           exact absurd hREST (by simp))
        | split at hso
        | dsimp only at hso
  · simp only [chunkStep]
    split_ifs <;> dsimp only <;> first | exact hb8 | simp_all [not_le]

theorem simLoop_rest_bound (inp : SegInput) (l : List ℕ) : ∀ (st : SimSt) (acc : List Stop),
    st.current_cumulative_break < break_after_hours →
    (∀ s ∈ acc, rest_break_window inp s) →
    ∀ s ∈ (simLoop inp l st acc).1, rest_break_window inp s := by
  induction l with
  | nil => intro st acc _ hacc s hs; exact hacc s hs
  | cons c rest ih =>
    intro st acc hst hacc s hs
    simp only [simLoop] at hs
    have hc := chunkStep_rest_bound inp c st hst
    refine ih _ _ hc.2 ?_ s hs
    intro t ht
    rcases List.mem_append.mp ht with ht | ht
    · exact hacc t ht
    · exact hc.1 t ht

/-- C4 (amended): in `_simulate_driving_segment`, the driving-since-break
clock departs from plain chunk accumulation only by being reset to zero,
and that happens exactly upon emission of a REST **or an OVERNIGHT**
stop (the daily-limit overnight emissions also zero it, contrary to
REST-only); and whenever a segment starts with the break clock below
`break_after_hours`, every REST stop it emits records a break-clock
value `b` with `break_after_hours ≤ b < break_after_hours + chunk_hours`
— so the clock may strictly exceed 8 h at the REST emission, by less
than one chunk. -/
theorem break_clock_amended :
    (∀ (inp : SegInput) (chunk : ℕ) (st : SimSt),
      (chunkStep inp chunk st).2.current_cumulative_break
          ≠ st.current_cumulative_break + chunk_hours inp.segment_duration_hours →
      (chunkStep inp chunk st).2.current_cumulative_break = 0 ∧
      ∃ s ∈ (chunkStep inp chunk st).1,
        s.type = StopType.REST ∨ s.type = StopType.OVERNIGHT) ∧
    (∀ inp : SegInput,
      inp.cumulative_driving_since_break < break_after_hours →
      ∀ s ∈ (simulateRaw inp).1, rest_break_window inp s) := by
  constructor
  · intro inp chunk st hne
    simp only [chunkStep] at hne ⊢
    split_ifs at hne ⊢ with h1 h2 h3 h4 <;>
      dsimp only at hne ⊢ <;>
      first
        | exact absurd rfl hne
        | exact ⟨rfl, by simp⟩
  · intro inp hlt s hs
    exact simLoop_rest_bound inp _ (initSimSt inp) [] hlt (by intro t ht; cases ht) s hs

/-- Witness for `break_clock_amended`: applying its reset
characterisation to the concrete `overnight_reset_input` chunk. -/
theorem break_clock_amended_witness :
    (chunkStep overnight_reset_input 0 (initSimSt overnight_reset_input)).2.current_cumulative_break
        = 0 ∧
    ∃ s ∈ (chunkStep overnight_reset_input 0 (initSimSt overnight_reset_input)).1,
      s.type = StopType.REST ∨ s.type = StopType.OVERNIGHT := by
  apply break_clock_amended.1
  rw [chunkB_props.2]
  simp only [initSimSt, overnight_reset_input]
  rw [chunk_hours_half]
  norm_num

/-- C4 counterexample: (a) with the break clock entering a segment at
7.75 h, the single half-hour chunk emits a REST stop whose recorded
break clock is 8.25 h — strictly above `break_after_hours` = 8; (b) a
chunk that emits only an OVERNIGHT stop (daily driving limit) resets
the break clock from a positive value to 0, so REST emission is not the
only reset. -/
theorem break_clock_claim_false :
    (((chunkStep rest_overflow_input 0 (initSimSt rest_overflow_input)).1.map
        (fun s => (s.type, s.cumulative_driving_since_break)))
        = [(StopType.REST, some (33/4))] ∧ break_after_hours < 33/4) ∧
    (((chunkStep overnight_reset_input 0 (initSimSt overnight_reset_input)).1.map Stop.type)
        = [StopType.OVERNIGHT] ∧
      (initSimSt overnight_reset_input).current_cumulative_break = 3 ∧ (0:ℚ) < 3 ∧
      (chunkStep overnight_reset_input 0 (initSimSt overnight_reset_input)).2.current_cumulative_break
        = 0) :=
  ⟨⟨chunkA_props, by norm_num [break_after_hours]⟩,
   ⟨chunkB_props.1, rfl, by norm_num, chunkB_props.2⟩⟩

theorem num_chunks_eight : num_chunks 8 = 16 := by
  have h : ⌈(8:ℚ) / CHUNK_SIZE_HOURS⌉ = 16 := by norm_num [CHUNK_SIZE_HOURS]
  rw [num_chunks, h]
  rfl

theorem chunk_hours_eight : chunk_hours 8 = 1/2 := by
  rw [chunk_hours, num_chunks_eight]
  norm_num

theorem num_chunks_neg_one : num_chunks (-1) = 1 := by
  have h : ⌈(-1:ℚ) / CHUNK_SIZE_HOURS⌉ = -2 := by
    rw [show (-1:ℚ) / CHUNK_SIZE_HOURS = ((-2:ℤ) : ℚ) from by norm_num [CHUNK_SIZE_HOURS]]
    exact Int.ceil_intCast (-2)
  rw [num_chunks, h]
  rfl

theorem chunk_hours_neg_one : chunk_hours (-1) = -1 := by
  rw [chunk_hours, num_chunks_neg_one]
  norm_num

theorem raw_c8 :
    simulateRaw ⟨400, 8, 0, 0, 0, 0, 0, fuel_interval_miles, false⟩
      = ([rawRestC8], ⟨8, 17/2, 0, 1000, 1, 17/2⟩) := by
  rw [simulateRaw]
  dsimp only
  rw [num_chunks_eight, show List.range 16 = List.range' 0 15 ++ [15] from by decide]
  rw [simLoop_append]
  rw [simLoop_quiet _ 15 0 _ []
    (by simp [initSimSt])
    (by rw [chunk_hours_eight]; norm_num)
    (by simp only [initSimSt]; rw [chunk_hours_eight]; norm_num [break_after_hours])
    (by simp only [initSimSt]; rw [chunk_hours_eight]; norm_num [max_driving_hours])
    (by simp only [initSimSt]; rw [chunk_hours_eight]; norm_num [max_duty_hours])
    (Or.inl rfl)]
  dsimp only
  simp only [simLoop, List.nil_append]
  simp only [chunkStep, initSimSt, chunk_hours_eight, num_chunks_eight,
    break_after_hours, max_driving_hours, max_duty_hours, rest_stop_duration,
    min_rest_hours, fuel_stop_duration, fuel_interval_miles, rawRestC8]
  norm_num

theorem seg1_c8_eval :
    (simulate_driving_segment ⟨400, 8, 0, 0, 0, 0, 0, fuel_interval_miles, false⟩).1
      = [restC8] := by
  rw [simulate_driving_segment, raw_c8]
  simp [setLastMeta, rawRestC8, restC8]

/-- C8 counterexample: `_generate_hos_compliant_stops` applied with a
negative pickup→dropoff duration (the second leg gets distance 0 and
duration −1 h) raises nothing at all: it runs the simulation and
returns a complete stop list START, REST, PICKUP, DROPOFF, so a
non-positive-duration input is neither rejected with
`InvalidInputError` nor kept from stop generation. -/
theorem negative_duration_not_rejected :
    Except.map (List.map Stop.type) (generate_hos_compliant_stops 400 8 0 (-1) 0)
      = Except.ok [StopType.START, StopType.REST, StopType.PICKUP, StopType.DROPOFF] := by
  have hseg2 : (simulate_driving_segment
      ⟨0, -1, 400, pyRound2 8 + pickup_duration, 8, 17/2 + pickup_duration, 0, 1000, true⟩).1
      = [] := by
    rw [simulate_driving_segment, simulateRaw]
    dsimp only
    rw [num_chunks_neg_one, show List.range 1 = [0] from by decide]
    simp only [simLoop]
    rw [chunkStep_quiet _ 0 _
      (by simp only [initSimSt]; rw [chunk_hours_neg_one]; norm_num [break_after_hours])
      (by
        simp only [initSimSt, num_chunks_neg_one]
        rintro ⟨-, hle⟩
        norm_num at hle)
      (by simp only [initSimSt]; rw [chunk_hours_neg_one]; norm_num [max_driving_hours])
      (by simp only [initSimSt]; rw [chunk_hours_neg_one]
          norm_num [max_duty_hours, pickup_duration])]
    rfl
  rw [generate_hos_compliant_stops]
  dsimp only
  rw [seg1_c8_eval]
  simp only [List.getLast?_singleton, restC8, Option.getD_some]
  rw [hseg2]
  rfl

/-- C8 (amended): the planner performs no input validation at all — no
`InvalidInputError` exists in the code.  `_generate_hos_compliant_stops`
either completes normally (it does so even for a non-positive
distance/duration leg, see the counterexample) or dies with the
unrelated `NameError` of C1; it never rejects an input with
`InvalidInputError` before simulating, and simulation always starts. -/
theorem no_invalid_input_rejection :
    ∀ d1 h1 d2 h2 cyc : ℚ,
      generate_hos_compliant_stops d1 h1 d2 h2 cyc ≠ Except.error "InvalidInputError" := by
  intro d1 h1 d2 h2 cyc hcontra
  rw [generate_hos_compliant_stops] at hcontra
  dsimp only at hcontra
  rcases hl : (simulate_driving_segment
      { segment_distance_miles := d1, segment_duration_hours := h1,
        start_distance := 0, start_hours := 0,
        cumulative_driving_today := 0, cumulative_on_duty_today := 0,
        cumulative_driving_since_break := 0,
        next_fuel_check := fuel_interval_miles, is_after_pickup := false }).1.getLast? with
    _ | last1
  · rw [hl] at hcontra
    simp only [name_error_current_hours, Except.error.injEq] at hcontra
    exact absurd hcontra (by decide)
  · rw [hl] at hcontra
    exact Except.noConfusion hcontra

/-- Witness for `no_invalid_input_rejection` at a concrete input. -/
theorem no_invalid_input_rejection_witness :
    generate_hos_compliant_stops 1 1 1 1 1 ≠ Except.error "InvalidInputError" :=
  no_invalid_input_rejection 1 1 1 1 1

theorem splitTail_sum (ty : StopType) (sd : ℚ) (startDay day : ℤ) (r : ℚ) :
    0 ≤ r → ((splitTail ty sd startDay day r).map Frag.duration_in_day).sum = r := by
  induction day, r using splitTail.induct ty sd startDay with
  | case1 day r hr =>
    intro h0
    rw [splitTail, if_pos hr]
    simpa using (le_antisymm hr h0).symm
  | case2 day r hr hrs ih =>
    intro _
    rw [splitTail, if_neg hr]
    simp only [not_le] at hr
    simp only [List.map_cons, List.sum_cons]
    have hhrs : hrs = min 24 r := rfl
    rw [hhrs] at ih
    rcases le_or_lt r 24 with h24 | h24
    · rw [show min (24:ℚ) r = r from min_eq_right h24] at ih ⊢
      rw [sub_self] at ih ⊢
      rw [ih le_rfl]
      ring
    · rw [show min (24:ℚ) r = 24 from min_eq_left (le_of_lt h24)] at ih ⊢
      rw [ih (by linarith)]
      ring

/-- C3: for a stop with non-negative cumulative hours and duration, the
`duration_in_day` values of its day-bound fragments sum exactly to the
original `stop_duration`, and a zero-duration stop yields exactly one
zero-length fragment. -/
theorem split_durations_sum (stop : Stop) (hc : 0 ≤ stop.cumulative_hours)
    (hd : 0 ≤ stop.stop_duration) :
    ((split_stop_across_days stop).map Frag.duration_in_day).sum = stop.stop_duration ∧
    (stop.stop_duration = 0 →
      (split_stop_across_days stop).length = 1 ∧
      ∀ f ∈ split_stop_across_days stop, f.duration_in_day = 0) := by
  have hfloor : (⌊stop.cumulative_hours / 24⌋ : ℚ) ≤ stop.cumulative_hours / 24 :=
    Int.floor_le _
  constructor
  · rw [split_stop_across_days]
    dsimp only
    split_ifs with hsame
    · simp
    · -- the stop crosses midnight: the floor of the end time is strictly larger
      have hmono : ⌊stop.cumulative_hours / 24⌋
          ≤ ⌊(stop.cumulative_hours + stop.stop_duration) / 24⌋ := by
        apply Int.floor_le_floor
        apply div_le_div_of_nonneg_right ?_ (by norm_num)
        · linarith
      have hlt : ⌊stop.cumulative_hours / 24⌋
          < ⌊(stop.cumulative_hours + stop.stop_duration) / 24⌋ := by
        rcases lt_or_eq_of_le hmono with h | h
        · exact h
        · exact absurd (by omega : (⌊stop.cumulative_hours / 24⌋ : ℤ) + 1
            = ⌊(stop.cumulative_hours + stop.stop_duration) / 24⌋ + 1) hsame
      have hge : ((⌊stop.cumulative_hours / 24⌋ : ℤ) + 1 : ℚ)
          ≤ (stop.cumulative_hours + stop.stop_duration) / 24 := by
        have h1 : (⌊stop.cumulative_hours / 24⌋ : ℤ) + 1
            ≤ ⌊(stop.cumulative_hours + stop.stop_duration) / 24⌋ := by omega
        calc ((⌊stop.cumulative_hours / 24⌋ : ℤ) + 1 : ℚ)
            ≤ ((⌊(stop.cumulative_hours + stop.stop_duration) / 24⌋ : ℤ) : ℚ) := by
              exact_mod_cast h1
          _ ≤ (stop.cumulative_hours + stop.stop_duration) / 24 := Int.floor_le _
      have hrem : 0 ≤ stop.stop_duration
          - (24 - (stop.cumulative_hours - 24 * ⌊stop.cumulative_hours / 24⌋)) := by
        rw [le_div_iff₀ (by norm_num : (0:ℚ) < 24)] at hge
        push_cast at hge
        linarith
      simp only [List.map_cons, List.sum_cons]
      rw [splitTail_sum _ _ _ _ _ hrem]
      ring
  · intro h0
    rw [split_stop_across_days]
    dsimp only
    rw [if_pos (by rw [h0, add_zero])]
    refine ⟨rfl, ?_⟩
    intro f hf
    rw [List.mem_singleton] at hf
    subst hf
    exact h0

/-- Witness for `split_durations_sum`: a 2-hour stop starting at hour 23
splits into fragments whose durations sum to the original 2 hours. -/
theorem split_durations_sum_witness :
    ((split_stop_across_days
        ⟨StopType.REST, 0, 23, 2, none, none, none, none, none, none, none, false⟩).map
      Frag.duration_in_day).sum
      = (⟨StopType.REST, 0, 23, 2, none, none, none, none, none, none, none, false⟩
          : Stop).stop_duration :=
  (split_durations_sum _ (by norm_num) (by norm_num)).1

theorem mem_insertFrag {f g : Frag} : ∀ {l : List Frag}, g ∈ insertFrag f l ↔ g = f ∨ g ∈ l := by
  intro l
  induction l with
  | nil => simp [insertFrag]
  | cons h rest ih =>
    rw [insertFrag]
    split_ifs with hlt
    · simp
    · simp only [List.mem_cons, ih]
      tauto

theorem mem_sortByStart {g : Frag} : ∀ {l : List Frag}, g ∈ sortByStart l ↔ g ∈ l := by
  intro l
  induction l with
  | nil => simp [sortByStart]
  | cons f rest ih =>
    rw [sortByStart, mem_insertFrag]
    simp [ih]

theorem sortByStart_eq_nil {l : List Frag} : sortByStart l = [] ↔ l = [] := by
  cases l with
  | nil => simp [sortByStart]
  | cons f rest =>
    simp only [sortByStart]
    constructor
    · intro h
      have : f ∈ insertFrag f (sortByStart rest) := mem_insertFrag.mpr (Or.inl rfl)
      rw [h] at this
      exact absurd this (List.not_mem_nil f)
    · intro h
      exact absurd h (List.cons_ne_nil f rest)

theorem chainFrom_snoc {a c : ℚ} : ∀ {l : List Seg}, chainFrom a l c → ∀ s : Seg,
    s.startH = c → c ≤ s.endH → chainFrom a (l ++ [s]) s.endH := by
  intro l
  induction l generalizing a with
  | nil =>
    intro h s hs hle
    exact ⟨hs.trans h.symm, h ▸ hle, rfl⟩
  | cons s0 rest ih =>
    intro h s hs hle
    exact ⟨h.1, h.2.1, ih h.2.2 s hs hle⟩

theorem scheduleStops_chain : ∀ (stops : List Frag) (c : ℚ) (acc : List Seg),
    (∀ f ∈ stops, 0 ≤ f.duration_in_day ∧
      f.start_time_in_day + f.duration_in_day ≤ 24) →
    chainFrom 0 acc c → c ≤ 24 →
    chainFrom 0 (scheduleStops stops c acc).1 (scheduleStops stops c acc).2 ∧
      (scheduleStops stops c acc).2 ≤ 24 := by
  intro stops
  induction stops with
  | nil => intro c acc _ hch hc; exact ⟨hch, hc⟩
  | cons f rest ih =>
    intro c acc hval hch hc
    have hf := hval f (List.mem_cons_self f rest)
    have hrest : ∀ g ∈ rest, 0 ≤ g.duration_in_day ∧
        g.start_time_in_day + g.duration_in_day ≤ 24 :=
      fun g hg => hval g (List.mem_cons_of_mem f hg)
    rw [scheduleStops]
    split_ifs with hskip hgap
    · exact ih c acc hrest hch hc
    · -- driving gap, then the stop's segment
      apply ih _ _ hrest
      · apply chainFrom_snoc (chainFrom_snoc hch _ rfl (le_of_lt hgap)) _ rfl
        dsimp only
        linarith [hf.1]
      · dsimp only
        linarith [hf.2]
    · -- no gap: the stop starts exactly at the cursor
      have heq : c = f.start_time_in_day := le_antisymm (not_lt.mp hskip) (not_lt.mp hgap)
      apply ih _ _ hrest
      · apply chainFrom_snoc hch _ rfl
        dsimp only
        linarith [hf.1]
      · dsimp only
        rw [heq]
        linarith [hf.2]

theorem scheduleStops_lt : ∀ (stops : List Frag) (c : ℚ) (acc : List Seg),
    (∀ f ∈ stops, f.start_time_in_day + f.duration_in_day < 24) →
    c < 24 → (scheduleStops stops c acc).2 < 24 := by
  intro stops
  induction stops with
  | nil => intro c acc _ hc; exact hc
  | cons f rest ih =>
    intro c acc hval hc
    have hf := hval f (List.mem_cons_self f rest)
    have hrest : ∀ g ∈ rest, g.start_time_in_day + g.duration_in_day < 24 :=
      fun g hg => hval g (List.mem_cons_of_mem f hg)
    rw [scheduleStops]
    split_ifs with hskip hgap
    · exact ih c acc hrest hc
    · exact ih _ _ hrest (by dsimp only; linarith)
    · have heq : c = f.start_time_in_day := le_antisymm (not_lt.mp hskip) (not_lt.mp hgap)
      exact ih _ _ hrest (by dsimp only; rw [heq]; linarith)

theorem splitTail_valid (ty : StopType) (sd : ℚ) (startDay : ℤ) : ∀ (day : ℤ) (r : ℚ),
    ∀ f ∈ splitTail ty sd startDay day r,
      0 ≤ f.start_time_in_day ∧ 0 ≤ f.duration_in_day ∧
      f.end_time_in_day = f.start_time_in_day + f.duration_in_day ∧
      f.end_time_in_day ≤ 24 := by
  intro day r
  induction day, r using splitTail.induct ty sd startDay with
  | case1 day r hr =>
    intro f hf
    rw [splitTail, if_pos hr] at hf
    cases hf
  | case2 day r hr hrs ih =>
    intro f hf
    rw [splitTail, if_neg hr] at hf
    simp only [not_le] at hr
    rcases List.mem_cons.mp hf with rfl | hf2
    · dsimp only
      refine ⟨le_refl 0, le_min (by norm_num) (le_of_lt hr), (zero_add _).symm,
        min_le_left _ _⟩
    · exact ih f hf2

theorem split_frag_valid (stop : Stop) (hd : 0 ≤ stop.stop_duration) :
    ∀ f ∈ split_stop_across_days stop,
      0 ≤ f.start_time_in_day ∧ 0 ≤ f.duration_in_day ∧
      f.end_time_in_day = f.start_time_in_day + f.duration_in_day ∧
      f.end_time_in_day ≤ 24 := by
  intro f hf
  have hfl : (24:ℚ) * (⌊stop.cumulative_hours / 24⌋ : ℚ) ≤ stop.cumulative_hours := by
    rw [mul_comm, ← le_div_iff₀ (by norm_num : (0:ℚ) < 24)]
    exact Int.floor_le _
  have hfu : stop.cumulative_hours < 24 * ((⌊stop.cumulative_hours / 24⌋ : ℚ) + 1) := by
    rw [mul_comm, ← div_lt_iff₀ (by norm_num : (0:ℚ) < 24)]
    exact Int.lt_floor_add_one _
  have hel : (24:ℚ) * (⌊(stop.cumulative_hours + stop.stop_duration) / 24⌋ : ℚ)
      ≤ stop.cumulative_hours + stop.stop_duration := by
    rw [mul_comm, ← le_div_iff₀ (by norm_num : (0:ℚ) < 24)]
    exact Int.floor_le _
  have heu : stop.cumulative_hours + stop.stop_duration
      < 24 * ((⌊(stop.cumulative_hours + stop.stop_duration) / 24⌋ : ℚ) + 1) := by
    rw [mul_comm, ← div_lt_iff₀ (by norm_num : (0:ℚ) < 24)]
    exact Int.lt_floor_add_one _
  rw [split_stop_across_days] at hf
  dsimp only at hf
  split_ifs at hf with hsame
  · rw [List.mem_singleton] at hf
    subst hf
    dsimp only
    have hGF : ⌊(stop.cumulative_hours + stop.stop_duration) / 24⌋
        = ⌊stop.cumulative_hours / 24⌋ := by omega
    rw [hGF] at hel heu ⊢
    refine ⟨by linarith, hd, by ring, by linarith⟩
  · rcases List.mem_cons.mp hf with rfl | hf2
    · dsimp only
      refine ⟨by linarith, by linarith, by ring, le_refl 24⟩
    · exact splitTail_valid _ _ _ _ _ f hf2

theorem fill_chain (sorted : List Frag) (acc0 : List Seg) (ct0 : ℚ) (fillSt : Duty)
    (hval2 : ∀ f ∈ sorted, 0 ≤ f.duration_in_day ∧
      f.start_time_in_day + f.duration_in_day ≤ 24)
    (hch0 : chainFrom 0 acc0 ct0) (hct : ct0 ≤ 24) :
    chainFrom 0
      (if (scheduleStops sorted ct0 acc0).2 < 24 then
        (scheduleStops sorted ct0 acc0).1 ++
          [{ status := fillSt, startH := (scheduleStops sorted ct0 acc0).2, endH := 24 }]
      else (scheduleStops sorted ct0 acc0).1) 24 := by
  have hmain := scheduleStops_chain sorted ct0 acc0 hval2 hch0 hct
  split_ifs with hlt
  · exact chainFrom_snoc hmain.1 _ rfl (le_of_lt hlt)
  · have h24 : (scheduleStops sorted ct0 acc0).2 = 24 := le_antisymm hmain.2 (not_lt.mp hlt)
    exact h24 ▸ hmain.1

theorem generate_daily_schedule_chain (day_stops : List Frag) (d : ℤ) (t : ℕ)
    (hval : ∀ f ∈ day_stops, 0 ≤ f.start_time_in_day ∧ 0 ≤ f.duration_in_day ∧
      f.end_time_in_day = f.start_time_in_day + f.duration_in_day ∧
      f.end_time_in_day ≤ 24)
    (hne : d = 1 ∨ day_stops ≠ []) :
    ∃ sched, generate_daily_schedule day_stops d t = some sched ∧
      chainFrom 0 sched 24 := by
  have hvalS : ∀ f ∈ sortByStart day_stops,
      0 ≤ f.start_time_in_day ∧ 0 ≤ f.duration_in_day ∧
      f.end_time_in_day = f.start_time_in_day + f.duration_in_day ∧
      f.end_time_in_day ≤ 24 :=
    fun f hf => hval f (mem_sortByStart.mp hf)
  have hval2 : ∀ f ∈ sortByStart day_stops, 0 ≤ f.duration_in_day ∧
      f.start_time_in_day + f.duration_in_day ≤ 24 := by
    intro f hf
    have h := hvalS f hf
    exact ⟨h.2.1, by linarith [h.1, h.2.2.1, h.2.2.2]⟩
  rw [generate_daily_schedule]
  dsimp only
  by_cases hd1 : d = 1
  · rw [if_pos hd1]
    rcases hs : sortByStart day_stops with _ | ⟨f0, rest⟩
    · rw [hs] at hval2
      dsimp only
      rw [if_pos (by norm_num : (0:ℚ) < 6)]
      exact ⟨_, rfl, fill_chain [] _ 6 _ hval2 ⟨rfl, by norm_num, rfl⟩ (by norm_num)⟩
    · have hf0 := hvalS f0 (hs ▸ List.mem_cons_self f0 rest)
      rw [hs] at hval2
      dsimp only
      by_cases h6 : f0.start_time_in_day < 6
      · rw [if_pos h6]
        by_cases h0 : (0:ℚ) < f0.start_time_in_day
        · rw [if_pos h0]
          exact ⟨_, rfl, fill_chain (f0 :: rest) _ _ _ hval2
            ⟨rfl, le_of_lt h0, rfl⟩ (by linarith [hf0.1])⟩
        · rw [if_neg h0]
          have hz : f0.start_time_in_day = 0 := le_antisymm (not_lt.mp h0) hf0.1
          exact ⟨_, rfl, fill_chain (f0 :: rest) _ _ _ hval2 hz.symm (by linarith)⟩
      · rw [if_neg h6]
        rw [if_pos (by norm_num : (0:ℚ) < 6)]
        exact ⟨_, rfl, fill_chain (f0 :: rest) _ 6 _ hval2
          ⟨rfl, by norm_num, rfl⟩ (by norm_num)⟩
  · rw [if_neg hd1]
    rcases hfind : (sortByStart day_stops).find? (fun s => s.is_split_part &&
        (s.type == StopType.OVERNIGHT || s.type == StopType.OFF)) with _ | og
    · have hne2 : day_stops ≠ [] := by
        rcases hne with h | h
        · exact absurd h hd1
        · exact h
      rw [hfind]
      rcases hs : sortByStart day_stops with _ | ⟨f0, rest⟩
      · exact absurd (sortByStart_eq_nil.mp hs) hne2
      · rw [hs] at hval2
        dsimp only
        exact ⟨_, rfl, fill_chain (f0 :: rest) _ 10 _ hval2
          ⟨rfl, by norm_num, rfl⟩ (by norm_num)⟩
    · have hog := hvalS og (List.mem_of_find?_eq_some hfind)
      rw [hfind]
      refine ⟨_, rfl, fill_chain (sortByStart day_stops) _ og.end_time_in_day _ hval2
        ⟨rfl, by linarith [hog.1, hog.2.1, hog.2.2.1], rfl⟩ hog.2.2.2⟩

/-- C2: for every day of every trip — i.e. for the day-`d` fragments of
any stop list with non-negative stop durations — the synthesized daily
schedule is contiguous and non-overlapping and exactly covers [0,24):
the first segment starts at hour 0, each segment starts where the
previous one ended with non-negative length, and the last segment ends
exactly at hour 24. -/
theorem daily_schedule_covers_day (stops : List Stop) (d : ℤ) (t : ℕ)
    (hdur : ∀ s ∈ stops, 0 ≤ s.stop_duration)
    (hne : d = 1 ∨ (split_stops_across_days stops).filter (fun f => f.day == d) ≠ []) :
    ∃ sched, generate_daily_schedule
        ((split_stops_across_days stops).filter (fun f => f.day == d)) d t
        = some sched ∧
      chainFrom 0 sched 24 := by
  apply generate_daily_schedule_chain _ _ _ ?_ hne
  intro f hf
  have hf2 := (List.mem_filter.mp hf).1
  rw [split_stops_across_days] at hf2
  rcases List.mem_flatMap.mp hf2 with ⟨stop, hstop, hfs⟩
  exact split_frag_valid stop (hdur stop hstop) f hfs

/-- Witness for `daily_schedule_covers_day`: day 1 of a one-stop trip
(a 6-hour pickup starting at hour 6). -/
theorem daily_schedule_covers_day_witness :
    ∃ sched, generate_daily_schedule
        ((split_stops_across_days
            [⟨StopType.PICKUP, 0, 6, 6, none, none, none, none, none, none, none, false⟩]).filter
          (fun f => f.day == 1)) 1 1
        = some sched ∧
      chainFrom 0 sched 24 :=
  daily_schedule_covers_day _ 1 1
    (by
      intro s hs
      rw [List.mem_singleton] at hs
      subst hs
      norm_num)
    (Or.inl rfl)

theorem fill_last (sorted : List Frag) (acc0 : List Seg) (ct0 : ℚ) (fillSt : Duty)
    (hlt : ∀ f ∈ sorted, f.start_time_in_day + f.duration_in_day < 24)
    (hct : ct0 < 24) :
    (if (scheduleStops sorted ct0 acc0).2 < 24 then
       (scheduleStops sorted ct0 acc0).1 ++
         [{ status := fillSt, startH := (scheduleStops sorted ct0 acc0).2, endH := 24 }]
     else (scheduleStops sorted ct0 acc0).1).getLast?
      = some { status := fillSt, startH := (scheduleStops sorted ct0 acc0).2,
               endH := (24:ℚ) } := by
  rw [if_pos (scheduleStops_lt sorted ct0 acc0 hlt hct)]
  exact List.getLast?_concat _

/-- C6 (amended): whenever every fragment of the day ends strictly
before hour 24, the synthesized schedule ends with a fill segment
ending exactly at hour 24 — OFF_DUTY on the trip's final day
(`day_num == total_days`) and DRIVING on intermediate days.  When a
fragment already reaches hour 24 exactly, no fill segment is appended
and the last block keeps the covering fragment's own status (see the
counterexample). -/
theorem final_day_fill_segment (day_stops : List Frag) (d : ℤ) (t : ℕ)
    (hval : ∀ f ∈ day_stops, 0 ≤ f.start_time_in_day ∧ 0 ≤ f.duration_in_day ∧
      f.end_time_in_day = f.start_time_in_day + f.duration_in_day ∧
      f.end_time_in_day < 24)
    (hne : d = 1 ∨ day_stops ≠ []) :
    ∃ sched lastSeg, generate_daily_schedule day_stops d t = some sched ∧
      sched.getLast? = some lastSeg ∧ lastSeg.endH = 24 ∧
      lastSeg.status = (if d = (t : ℤ) then Duty.OFF else Duty.D) := by
  have hvalS : ∀ f ∈ sortByStart day_stops,
      0 ≤ f.start_time_in_day ∧ 0 ≤ f.duration_in_day ∧
      f.end_time_in_day = f.start_time_in_day + f.duration_in_day ∧
      f.end_time_in_day < 24 :=
    fun f hf => hval f (mem_sortByStart.mp hf)
  have hlt2 : ∀ f ∈ sortByStart day_stops,
      f.start_time_in_day + f.duration_in_day < 24 := by
    intro f hf
    have h := hvalS f hf
    linarith [h.2.2.1, h.2.2.2]
  rw [generate_daily_schedule]
  dsimp only
  by_cases hd1 : d = 1
  · rw [if_pos hd1]
    rcases hs : sortByStart day_stops with _ | ⟨f0, rest⟩
    · rw [hs] at hlt2
      dsimp only
      rw [if_pos (by norm_num : (0:ℚ) < 6)]
      exact ⟨_, _, rfl, fill_last [] _ 6 _ hlt2 (by norm_num), rfl, rfl⟩
    · have hf0 := hvalS f0 (hs ▸ List.mem_cons_self f0 rest)
      rw [hs] at hlt2
      dsimp only
      by_cases h6 : f0.start_time_in_day < 6
      · rw [if_pos h6]
        by_cases h0 : (0:ℚ) < f0.start_time_in_day
        · rw [if_pos h0]
          exact ⟨_, _, rfl, fill_last (f0 :: rest) _ _ _ hlt2
            (by linarith [hf0.1, hf0.2.1, hf0.2.2.1, hf0.2.2.2]), rfl, rfl⟩
        · rw [if_neg h0]
          exact ⟨_, _, rfl, fill_last (f0 :: rest) _ _ _ hlt2
            (by linarith [hf0.1, hf0.2.1, hf0.2.2.1, hf0.2.2.2]), rfl, rfl⟩
      · rw [if_neg h6]
        rw [if_pos (by norm_num : (0:ℚ) < 6)]
        exact ⟨_, _, rfl, fill_last (f0 :: rest) _ 6 _ hlt2 (by norm_num), rfl, rfl⟩
  · rw [if_neg hd1]
    rcases hfind : (sortByStart day_stops).find? (fun s => s.is_split_part &&
        (s.type == StopType.OVERNIGHT || s.type == StopType.OFF)) with _ | og
    · have hne2 : day_stops ≠ [] := by
        rcases hne with h | h
        · exact absurd h hd1
        · exact h
      rw [hfind]
      rcases hs : sortByStart day_stops with _ | ⟨f0, rest⟩
      · exact absurd (sortByStart_eq_nil.mp hs) hne2
      · rw [hs] at hlt2
        dsimp only
        exact ⟨_, _, rfl, fill_last (f0 :: rest) _ 10 _ hlt2 (by norm_num), rfl, rfl⟩
    · have hog := hvalS og (List.mem_of_find?_eq_some hfind)
      rw [hfind]
      refine ⟨_, _, rfl, fill_last (sortByStart day_stops) _ og.end_time_in_day _ hlt2
        ?_, rfl, rfl⟩
      exact hog.2.2.2

theorem c6_split_eval :
    split_stop_across_days
        ⟨StopType.DROPOFF, 0, 23, 1, none, none, none, none, none, none, none, false⟩
      = [{ type := StopType.DROPOFF, day := 1, start_time_in_day := 23,
           end_time_in_day := 24, duration_in_day := 1, stop_duration := 1,
           is_split_part := true, split_part := 1, original_stop_duration := some 1 }] := by
  rw [split_stop_across_days]
  dsimp only
  rw [show ⌊(23:ℚ)/24⌋ = 0 from by norm_num]
  rw [show ⌊((23:ℚ) + 1)/24⌋ = 1 from by norm_num]
  rw [if_neg (by decide : ¬((0:ℤ) + 1 = 1 + 1))]
  rw [splitTail, if_pos (by norm_num)]
  norm_num

/-- C6 counterexample: a DROPOFF whose interval is exactly [23, 24) —
produced by the splitter for a stop at cumulative hour 23 with a 1-hour
duration — makes the final day's schedule end with an ON_DUTY segment
reaching hour 24, not an OFF_DUTY segment: the cursor reaches 24 inside
the stop loop, so the "Trip complete - off duty" fill is skipped. -/
theorem final_day_claim_false :
    generate_daily_schedule
        (split_stop_across_days
          ⟨StopType.DROPOFF, 0, 23, 1, none, none, none, none, none, none, none, false⟩)
        1 1
      = some [{ status := Duty.OFF, startH := 0, endH := 6 },
              { status := Duty.D, startH := 6, endH := 23 },
              { status := Duty.ON, startH := 23, endH := 24 }] ∧
    ([{ status := Duty.OFF, startH := 0, endH := 6 },
      { status := Duty.D, startH := 6, endH := 23 },
      { status := Duty.ON, startH := 23, endH := 24 }] : List Seg).getLast?.map Seg.status
      ≠ some Duty.OFF := by
  constructor
  · rw [c6_split_eval, generate_daily_schedule]
    dsimp only
    norm_num [sortByStart, insertFrag, scheduleStops, get_status_for_stop_type]
  · simp

/-- Witness for `final_day_fill_segment`: a single 6-hour pickup
fragment on day 1 of a one-day trip. -/
theorem final_day_fill_segment_witness :
    ∃ sched lastSeg, generate_daily_schedule
        [⟨StopType.PICKUP, 1, 6, 12, 6, 6, false, 1, none⟩] 1 1 = some sched ∧
      sched.getLast? = some lastSeg ∧ lastSeg.endH = 24 ∧
      lastSeg.status = (if (1:ℤ) = ((1:ℕ) : ℤ) then Duty.OFF else Duty.D) :=
  final_day_fill_segment _ 1 1
    (by
      intro f hf
      rw [List.mem_singleton] at hf
      subst hf
      norm_num)
    (Or.inl rfl)

/-- C10: the reported off-duty figure equals
`max(0, 24 - (driving + on-duty-not-driving + sleeper_berth))` (with
the day's final sleeper value), so it is never negative even when the
accounted activity exceeds 24 hours; and on the trip's last day, when
an overnight fragment is present (positive pre-adjustment sleeper sum),
the reported sleeper berth is at least `min(8, 24 - total_on_duty)`. -/
theorem day_stats_off_duty_clamped (day_stops : List Frag) (d : ℤ) (t : ℕ) :
    (calculate_day_stats day_stops d t).off_duty_hours
        = max 0 (24 - ((calculate_day_stats day_stops d t).driving_hours
            + (calculate_day_stats day_stops d t).on_duty_not_driving
            + (calculate_day_stats day_stops d t).sleeper_berth)) ∧
    0 ≤ (calculate_day_stats day_stops d t).off_duty_hours ∧
    (d = (t : ℤ) → 0 < sleeperSum (sortByStart day_stops) →
      min 8 (24 - (calculate_day_stats day_stops d t).total_on_duty)
        ≤ (calculate_day_stats day_stops d t).sleeper_berth) := by
  by_cases hemp : day_stops = []
  · have hc : calculate_day_stats day_stops d t =
        { driving_hours := 0, on_duty_not_driving := 0, total_on_duty := 0,
          off_duty_hours := 24, sleeper_berth := 0 } := by
      rw [calculate_day_stats, if_pos hemp]
    rw [hc]
    refine ⟨by norm_num, by norm_num, ?_⟩
    intro _ hpos
    rw [hemp] at hpos
    simp [sortByStart, sleeperSum] at hpos
  · by_cases hadj : d = (t : ℤ) ∧ 0 < sleeperSum (sortByStart day_stops) ∧
        sleeperSum (sortByStart day_stops) < 8
    · have hc : calculate_day_stats day_stops d t =
          { driving_hours := gapDriving (sortByStart day_stops),
            on_duty_not_driving := onDutySum (sortByStart day_stops),
            total_on_duty := gapDriving (sortByStart day_stops)
              + onDutySum (sortByStart day_stops),
            off_duty_hours := max 0 (24 - (gapDriving (sortByStart day_stops)
              + onDutySum (sortByStart day_stops))
              - min 8 (24 - (gapDriving (sortByStart day_stops)
                + onDutySum (sortByStart day_stops)))),
            sleeper_berth := min 8 (24 - (gapDriving (sortByStart day_stops)
              + onDutySum (sortByStart day_stops))) } := by
        simp only [calculate_day_stats, if_neg hemp]
        rw [if_pos hadj]
      rw [hc]
      refine ⟨?_, le_max_left _ _, ?_⟩
      · dsimp only
        congr 1
        ring
      · intro _ _
        exact le_refl _
    · have hc : calculate_day_stats day_stops d t =
          { driving_hours := gapDriving (sortByStart day_stops),
            on_duty_not_driving := onDutySum (sortByStart day_stops),
            total_on_duty := gapDriving (sortByStart day_stops)
              + onDutySum (sortByStart day_stops),
            off_duty_hours := max 0 (24 - (gapDriving (sortByStart day_stops)
              + onDutySum (sortByStart day_stops)
              + sleeperSum (sortByStart day_stops))),
            sleeper_berth := sleeperSum (sortByStart day_stops) } := by
        simp only [calculate_day_stats, if_neg hemp]
        rw [if_neg hadj]
      rw [hc]
      refine ⟨rfl, le_max_left _ _, ?_⟩
      intro hlast hpos
      dsimp only
      have hge : (8:ℚ) ≤ sleeperSum (sortByStart day_stops) := by
        by_contra hcon
        push_neg at hcon
        exact hadj ⟨hlast, hpos, hcon⟩
      exact le_trans (min_le_left _ _) hge

/-- Witness for `day_stats_off_duty_clamped`: the last day of a one-day
trip containing a 2-hour overnight fragment. -/
theorem day_stats_off_duty_clamped_witness :
    (calculate_day_stats [⟨StopType.OVERNIGHT, 1, 0, 2, 2, 10, true, 1, some 10⟩] 1 1).off_duty_hours
        = max 0 (24 - ((calculate_day_stats [⟨StopType.OVERNIGHT, 1, 0, 2, 2, 10, true, 1, some 10⟩] 1 1).driving_hours
            + (calculate_day_stats [⟨StopType.OVERNIGHT, 1, 0, 2, 2, 10, true, 1, some 10⟩] 1 1).on_duty_not_driving
            + (calculate_day_stats [⟨StopType.OVERNIGHT, 1, 0, 2, 2, 10, true, 1, some 10⟩] 1 1).sleeper_berth)) ∧
    0 ≤ (calculate_day_stats [⟨StopType.OVERNIGHT, 1, 0, 2, 2, 10, true, 1, some 10⟩] 1 1).off_duty_hours ∧
    min 8 (24 - (calculate_day_stats [⟨StopType.OVERNIGHT, 1, 0, 2, 2, 10, true, 1, some 10⟩] 1 1).total_on_duty)
      ≤ (calculate_day_stats [⟨StopType.OVERNIGHT, 1, 0, 2, 2, 10, true, 1, some 10⟩] 1 1).sleeper_berth := by
  have h := day_stats_off_duty_clamped
    [⟨StopType.OVERNIGHT, 1, 0, 2, 2, 10, true, 1, some 10⟩] 1 1
  exact ⟨h.1, h.2.1, h.2.2 rfl (by norm_num [sortByStart, insertFrag, sleeperSum])⟩

/-- C5: after each day of the daily-log loop, the running cycle total
equals the initial `current_cycle_used` plus the sum of
`total_on_duty` (gap-driving plus on-duty-not-driving hours) over the
days processed so far; the k-th log stores that total rounded to one
decimal and sets `requires_34_hour_restart` exactly when the unrounded
total reaches the 70-hour cycle limit. -/
theorem cycle_accumulation (processed : List Frag) (t : ℕ) : ∀ (cyc : ℚ)
    (keys : List ℤ) (k : ℕ) (hk : k < (buildLogs processed t cyc keys).length),
    ((buildLogs processed t cyc keys).get ⟨k, hk⟩).cycle_used
        = pyRound1 (cyc + ((keys.take (k+1)).map (fun d =>
            (calculate_day_stats (processed.filter (fun f => f.day == d)) d t).total_on_duty)).sum) ∧
    ((buildLogs processed t cyc keys).get ⟨k, hk⟩).requires_34_hour_restart
        = decide (70 ≤ cyc + ((keys.take (k+1)).map (fun d =>
            (calculate_day_stats (processed.filter (fun f => f.day == d)) d t).total_on_duty)).sum) := by
  intro cyc keys
  induction keys generalizing cyc with
  | nil =>
    intro k hk
    simp [buildLogs] at hk
  | cons d rest ih =>
    intro k hk
    cases k with
    | zero =>
      constructor <;> simp [buildLogs, List.take_succ_cons]
    | succ k =>
      simp only [buildLogs, List.get_cons_succ, List.take_succ_cons, List.map_cons,
        List.sum_cons]
      have harith : cyc + ((calculate_day_stats (processed.filter (fun f => f.day == d)) d
            t).total_on_duty
          + ((rest.take (k+1)).map (fun x =>
              (calculate_day_stats (processed.filter (fun f => f.day == x)) x
                t).total_on_duty)).sum)
          = (cyc + (calculate_day_stats (processed.filter (fun f => f.day == d)) d
              t).total_on_duty)
            + ((rest.take (k+1)).map (fun x =>
                (calculate_day_stats (processed.filter (fun f => f.day == x)) x
                  t).total_on_duty)).sum := by
        ring
      simp only [harith]
      exact ih _ k _

/-- Witness for `cycle_accumulation`: the spec scenario — starting from
`current_cycle_used = 65.0`, a day whose stops contribute 6 on-duty
hours yields `cycle_used = 71.0` and sets the restart flag. -/
theorem cycle_accumulation_witness :
    ∃ hk : 0 < (buildLogs
        (split_stops_across_days
          [⟨StopType.PICKUP, 0, 6, 6, none, none, none, none, none, none, none, false⟩])
        1 65 [1]).length,
      ((buildLogs (split_stops_across_days
          [⟨StopType.PICKUP, 0, 6, 6, none, none, none, none, none, none, none, false⟩])
          1 65 [1]).get ⟨0, hk⟩).cycle_used = 71 ∧
      ((buildLogs (split_stops_across_days
          [⟨StopType.PICKUP, 0, 6, 6, none, none, none, none, none, none, none, false⟩])
          1 65 [1]).get ⟨0, hk⟩).requires_34_hour_restart = true := by
  have hsplit : split_stops_across_days
      [⟨StopType.PICKUP, 0, 6, 6, none, none, none, none, none, none, none, false⟩]
      = [{ type := StopType.PICKUP, day := 1, start_time_in_day := 6,
             end_time_in_day := 12, duration_in_day := 6, stop_duration := 6 }] := by
    rw [split_stops_across_days]
    simp only [List.flatMap_cons, List.flatMap_nil, List.append_nil]
    rw [split_stop_across_days]
    dsimp only
    rw [show ⌊(6:ℚ)/24⌋ = 0 from by norm_num]
    rw [show ⌊((6:ℚ) + 6)/24⌋ = 0 from by norm_num]
    rw [if_pos rfl]
    norm_num
  have hstats : calculate_day_stats
      ([({ type := StopType.PICKUP, day := 1, start_time_in_day := 6,
               end_time_in_day := 12, duration_in_day := 6, stop_duration := 6 } : Frag)].filter
        (fun f => f.day == (1:ℤ))) 1 1
      = { driving_hours := 0, on_duty_not_driving := 6, total_on_duty := 6,
          off_duty_hours := 18, sleeper_berth := 0 } := by
    norm_num [List.filter, calculate_day_stats, sortByStart, insertFrag, gapDriving,
      onDutySum, sleeperSum,
      show (StopType.PICKUP == StopType.OVERNIGHT) = false from rfl,
      show (StopType.PICKUP == StopType.PICKUP) = true from rfl,
      show (StopType.PICKUP == StopType.DROPOFF) = false from rfl,
      show (StopType.PICKUP == StopType.FUEL) = false from rfl,
      show (StopType.PICKUP == StopType.REST) = false from rfl]
  have hk : 0 < (buildLogs
      (split_stops_across_days
        [⟨StopType.PICKUP, 0, 6, 6, none, none, none, none, none, none, none, false⟩])
      1 65 [1]).length := by
    simp [buildLogs]
  refine ⟨hk, ?_, ?_⟩
  · rw [(cycle_accumulation _ 1 65 [1] 0 hk).1, hsplit]
    rw [List.take_succ_cons, List.take_nil, List.map_cons, List.map_nil, List.sum_cons,
      List.sum_nil, hstats]
    norm_num [pyRound1, pyRound0]
  · rw [(cycle_accumulation _ 1 65 [1] 0 hk).2, hsplit]
    rw [List.take_succ_cons, List.take_nil, List.map_cons, List.map_nil, List.sum_cons,
      List.sum_nil, hstats]
    norm_num

/-- C9 counterexample: for coincident coordinates (New York twice) the
straight-line fallback returns duration exactly 0 — not strictly
positive as the claim requires for near-zero distances. -/
theorem straight_route_zero_duration :
    (generate_straight_route ((-74006/1000 : ℝ), (407128/10000 : ℝ))
        ((-74006/1000 : ℝ), (407128/10000 : ℝ))).duration_hours = 0 ∧
    ¬ (0 < (generate_straight_route ((-74006/1000 : ℝ), (407128/10000 : ℝ))
        ((-74006/1000 : ℝ), (407128/10000 : ℝ))).duration_hours) := by
  have hd : calculate_great_circle_distance ((-74006/1000 : ℝ), (407128/10000 : ℝ))
      ((-74006/1000 : ℝ), (407128/10000 : ℝ)) = 0 := by
    rw [calculate_great_circle_distance]
    dsimp only
    norm_num [sub_self, Real.sin_zero, Real.sqrt_zero, Real.sqrt_one, atan2,
      Real.arctan_zero]
  constructor
  · rw [generate_straight_route]
    dsimp only
    rw [hd]
    norm_num
  · rw [generate_straight_route]
    dsimp only
    rw [hd]
    norm_num

/-- C9 (amended): when routing fails, `get_route` deterministically
returns the straight-line estimate (never an error or a null value);
its duration equals the great-circle distance divided by the assumed
80 km/h speed, hence is strictly positive whenever that distance is
positive — but it is exactly 0 for coincident coordinates (distance 0),
see the counterexample. -/
theorem get_route_fallback (c1 c2 : ℝ × ℝ) :
    get_route none c1 c2 = generate_straight_route c1 c2 ∧
    (generate_straight_route c1 c2).duration_hours
        = calculate_great_circle_distance c1 c2 / 80 ∧
    (0 < calculate_great_circle_distance c1 c2 →
      0 < (generate_straight_route c1 c2).duration_hours) := by
  refine ⟨rfl, rfl, ?_⟩
  intro h
  rw [generate_straight_route]
  dsimp only
  exact div_pos h (by norm_num)

/-- Witness for `get_route_fallback` at antipodal equator points
`(lng, lat) = (0, 0)` and `(180, 0)`, whose great-circle distance is
`6371 π > 0`. -/
theorem get_route_fallback_witness :
    get_route none ((0:ℝ), (0:ℝ)) ((180:ℝ), (0:ℝ))
        = generate_straight_route ((0:ℝ), (0:ℝ)) ((180:ℝ), (0:ℝ)) ∧
    (generate_straight_route ((0:ℝ), (0:ℝ)) ((180:ℝ), (0:ℝ))).duration_hours
        = calculate_great_circle_distance ((0:ℝ), (0:ℝ)) ((180:ℝ), (0:ℝ)) / 80 ∧
    0 < (generate_straight_route ((0:ℝ), (0:ℝ)) ((180:ℝ), (0:ℝ))).duration_hours := by
  have hdist : calculate_great_circle_distance ((0:ℝ), (0:ℝ)) ((180:ℝ), (0:ℝ))
      = 6371 * (2 * (Real.pi / 2)) := by
    rw [calculate_great_circle_distance]
    dsimp only
    rw [show radians 0 = 0 from by rw [radians]; ring]
    rw [show radians 180 = Real.pi from by
      rw [radians]
      field_simp]
    norm_num [Real.sin_zero, Real.cos_zero, Real.sin_pi_div_two, Real.sqrt_one,
      Real.sqrt_zero, atan2]
  have hpos : 0 < calculate_great_circle_distance ((0:ℝ), (0:ℝ)) ((180:ℝ), (0:ℝ)) := by
    rw [hdist]
    positivity
  have h := get_route_fallback ((0:ℝ), (0:ℝ)) ((180:ℝ), (0:ℝ))
  exact ⟨h.1, h.2.1, h.2.2 hpos⟩
